import Mathlib

/-!
Verification of the procedural-geometry kernel in
`artifact-two/enhanced/3DShapes/ShapeMeshes.cpp` / `ShapeMeshes.h`.

The C++ generators build a flat interleaved `GLfloat` buffer (8 floats per
vertex: position xyz, normal xyz, texture uv) and a `GLuint` index buffer.
We embed them shallowly: machine floats are idealised as elements of a
linear ordered field `K` (instantiated with `ℝ` for trigonometric facts and
with `ℚ` for executable witnesses), and the float library functions
`sin`, `cos`, `sqrt`, `pow` together with the constant `Pi` are passed as
explicit parameters (`sinf`, `cosf`, `sqrtf`, `powf`, `pi`), so every
definition stays computable and can be instantiated with `Real.sin` etc.
in theorems.  Division by zero follows Lean's junk-value convention
(`x / 0 = 0`), which models the `NaN`/`inf` poison values produced by
float division by zero in the C++ code.  C++ `int` parameters are `ℤ`;
a loop `for (i = 0; i <= n; ++i)` over an `int` bound becomes a fold over
`List.range (n + 1).toNat` (empty when the bound is negative, exactly as
in C++).
-/

/-- Vec3 mirrors `glm::vec3` as used by the mesh generators. -/
structure Vec3 (K : Type) where
  x : K
  y : K
  z : K
deriving DecidableEq

/-- Componentwise sum, mirroring `glm::vec3` addition. -/
def add3 {K : Type} [LinearOrderedField K] (a b : Vec3 K) : Vec3 K :=
  ⟨a.x + b.x, a.y + b.y, a.z + b.z⟩

/-- Scalar multiple `v * s` of a `glm::vec3` by a float. -/
def smul3 {K : Type} [LinearOrderedField K] (s : K) (a : Vec3 K) : Vec3 K :=
  ⟨a.x * s, a.y * s, a.z * s⟩

/-- `glm::dot`. -/
def dot3 {K : Type} [LinearOrderedField K] (a b : Vec3 K) : K :=
  a.x * b.x + a.y * b.y + a.z * b.z

/-- `glm::cross`. -/
def cross3 {K : Type} [LinearOrderedField K] (a b : Vec3 K) : Vec3 K :=
  ⟨a.y * b.z - a.z * b.y, a.z * b.x - a.x * b.z, a.x * b.y - a.y * b.x⟩

/-- `glm::normalize`: the vector divided by its Euclidean length.  The
length is `sqrtf (dot3 v v)` for the square-root routine `sqrtf` supplied
by the scalar model.  On the zero vector the C++ code divides by zero and
poisons the result with `NaN`; here the junk value is the zero vector. -/
def normalize3 {K : Type} [LinearOrderedField K] (sqrtf : K → K) (v : Vec3 K) : Vec3 K :=
  let len := sqrtf (dot3 v v)
  ⟨v.x / len, v.y / len, v.z / len⟩

/-- Vertex mirrors `struct Vertex` (`ShapeMeshes.h`): position, normal and
texture coordinate of one vertex, i.e. one 8-float interleaved record. -/
structure Vertex (K : Type) where
  px : K
  py : K
  pz : K
  nx : K
  ny : K
  nz : K
  u : K
  v : K
deriving DecidableEq

instance {K : Type} [LinearOrderedField K] : Inhabited (Vertex K) :=
  ⟨⟨0, 0, 0, 0, 0, 0, 0, 0⟩⟩

/-- The 8 floats a vertex contributes to the interleaved buffer, in the
order the C++ code pushes them. -/
def Vertex.toFloats {K : Type} (vt : Vertex K) : List K :=
  [vt.px, vt.py, vt.pz, vt.nx, vt.ny, vt.nz, vt.u, vt.v]

/-- Flatten a vertex list into the interleaved float buffer. -/
def flattenVerts {K : Type} (l : List (Vertex K)) : List K :=
  l.flatMap Vertex.toFloats

/-- GLMesh mirrors the CPU-visible counters of `struct GLMesh`
(`ShapeMeshes.h`); the GPU handles (`vao`, `vbo`, `ebo`) are owned by the
render backend and carry no data relevant to the claims. -/
structure GLMesh where
  nVertices : ℕ
  nIndices : ℕ
  numSlices : ℤ
deriving DecidableEq

/-- InitializeMesh (`ShapeMeshes.cpp:76`), restricted to its CPU-visible
effect: it stores `verts.size() / (FloatsPerVertex + FloatsPerNormal +
FloatsPerUV)` — i.e. the float count divided by 8 — as the vertex count,
and the index count. -/
def InitializeMesh {K : Type} (mesh : GLMesh) (verts : List K) (indices : List ℕ) : GLMesh :=
  { mesh with nVertices := verts.length / 8, nIndices := indices.length }

/-- Byte length of the uploaded vertex buffer: the C++ upload is
`glBufferData(GL_ARRAY_BUFFER, verts.size() * sizeof(GLfloat), ...)` with
`sizeof(GLfloat) = 4`. -/
def vertexBufferByteLength {K : Type} (verts : List K) : ℕ :=
  4 * verts.length

/-- Vertex count as computed by `InitializeMesh`: interleaved float count
divided by 8. -/
def nVerticesOf {K : Type} (verts : List K) : ℕ :=
  verts.length / 8

/-- The mesh-buffer invariant of the spec: every index value is strictly
below the vertex count derived from the interleaved buffer. -/
def indicesInBounds {K : Type} (out : List K × List ℕ) : Prop :=
  ∀ idx ∈ out.2, idx < nVerticesOf out.1

/-! ### LoadConeMesh (`ShapeMeshes.cpp:189`) -/

/-- The clamped slice count of `LoadConeMesh`:
`if (numSlices < 3) numSlices = 3;`. -/
def coneSlices (numSlices : ℤ) : ℕ :=
  (if numSlices < 3 then 3 else numSlices).toNat

/-- Vertex sequence of `LoadConeMesh`: bottom-cap center, `n` rim
vertices, the apex, then two side-ring vertices per slice. -/
def coneVertexList {K : Type} [LinearOrderedField K]
    (sinf cosf sqrtf : K → K) (pi radius height : K) (numSlices : ℤ) :
    List (Vertex K) :=
  let n := coneSlices numSlices
  let angleStep := 2 * pi / (n : K)
  let center : Vertex K := ⟨0, 0, 0, 0, -1, 0, 1/2, 1/2⟩
  let rim := (List.range n).map (fun (i : ℕ) =>
    let a := (i : K) * angleStep
    (⟨radius * cosf a, 0, radius * sinf a, 0, -1, 0,
      1/2 + 1/2 * cosf a, 1/2 + 1/2 * sinf a⟩ : Vertex K))
  let apex : Vertex K := ⟨0, height, 0, 0, 1, 0, 1/2, 1/2⟩
  let side := (List.range n).flatMap (fun (i : ℕ) =>
    let a0 := (i : K) * angleStep
    let a1 := ((i : K) + 1) * angleStep
    let p0 : Vec3 K := ⟨radius * cosf a0, 0, radius * sinf a0⟩
    let p1 : Vec3 K := ⟨radius * cosf a1, 0, radius * sinf a1⟩
    let normal := normalize3 sqrtf
      ⟨(p0.x + p1.x) * (1/2), height * (1/2), (p0.z + p1.z) * (1/2)⟩
    [(⟨p0.x, p0.y, p0.z, normal.x, normal.y, normal.z,
       (i : K) / (n : K), 1⟩ : Vertex K),
     (⟨p1.x, p1.y, p1.z, normal.x, normal.y, normal.z,
       ((i : K) + 1) / (n : K), 1⟩ : Vertex K)])
  center :: rim ++ apex :: side

/-- Index sequence of `LoadConeMesh`: a fan triangle per slice around the
bottom center (index 0), then an apex triangle per slice over the side
ring starting at index `n + 2`. -/
def coneIndexList (numSlices : ℤ) : List ℕ :=
  let n := coneSlices numSlices
  let bottom := (List.range n).flatMap (fun i =>
    [0, ((i + 1) % n) + 1, i + 1])
  let side := (List.range n).flatMap (fun i =>
    [n + 1, n + 2 + 2 * i, n + 2 + 2 * i + 1])
  bottom ++ side

/-- LoadConeMesh: the interleaved float buffer and index buffer handed to
`InitializeMesh`. -/
def LoadConeMesh {K : Type} [LinearOrderedField K]
    (sinf cosf sqrtf : K → K) (pi radius height : K) (numSlices : ℤ) :
    List K × List ℕ :=
  (flattenVerts (coneVertexList sinf cosf sqrtf pi radius height numSlices),
   coneIndexList numSlices)

/-! ### LoadSphereMesh (`ShapeMeshes.cpp:672`) -/

/-- Vertex grid of `LoadSphereMesh`: `(latitudeSegments + 1)` rows of
`(longitudeSegments + 1)` vertices.  No parameter is clamped. -/
def sphereVertexList {K : Type} [LinearOrderedField K]
    (sinf cosf : K → K) (pi : K) (latitudeSegments longitudeSegments : ℤ)
    (radius : K) : List (Vertex K) :=
  (List.range (latitudeSegments + 1).toNat).flatMap (fun (lat : ℕ) =>
    (List.range (longitudeSegments + 1).toNat).map (fun (lon : ℕ) =>
      let theta := (lat : K) * pi / (latitudeSegments : K)
      let sinTheta := sinf theta
      let cosTheta := cosf theta
      let phi := (lon : K) * 2 * pi / (longitudeSegments : K)
      let sinPhi := sinf phi
      let cosPhi := cosf phi
      (⟨radius * sinTheta * cosPhi, radius * cosTheta, radius * sinTheta * sinPhi,
        sinTheta * cosPhi, cosTheta, sinTheta * sinPhi,
        1 - (lon : K) / (longitudeSegments : K),
        1 - (lat : K) / (latitudeSegments : K)⟩ : Vertex K)))

/-- Index grid of `LoadSphereMesh`: two triangles per cell. -/
def sphereIndexList (latitudeSegments longitudeSegments : ℤ) : List ℕ :=
  (List.range latitudeSegments.toNat).flatMap (fun lat =>
    (List.range longitudeSegments.toNat).flatMap (fun lon =>
      let first := lat * (longitudeSegments.toNat + 1) + lon
      let second := first + longitudeSegments.toNat + 1
      [first, second, first + 1, second, second + 1, first + 1]))

/-- LoadSphereMesh: interleaved float buffer plus index buffer. -/
def LoadSphereMesh {K : Type} [LinearOrderedField K]
    (sinf cosf : K → K) (pi : K) (latitudeSegments longitudeSegments : ℤ)
    (radius : K) : List K × List ℕ :=
  (flattenVerts (sphereVertexList sinf cosf pi latitudeSegments longitudeSegments radius),
   sphereIndexList latitudeSegments longitudeSegments)

/-! ### LoadCylinderMesh (`ShapeMeshes.cpp:277`) -/

/-- The clamped slice count of `LoadCylinderMesh` (same guard as the cone). -/
def cylinderSlices (numSlices : ℤ) : ℕ :=
  (if numSlices < 3 then 3 else numSlices).toNat

/-- Vertex sequence of `LoadCylinderMesh`: bottom cap (center plus
`n + 1` rim vertices, the seam vertex duplicated), top cap likewise, then
`n + 1` bottom/top side pairs with radial normals. -/
def cylinderVertexList {K : Type} [LinearOrderedField K]
    (sinf cosf : K → K) (pi radius height : K) (numSlices : ℤ) :
    List (Vertex K) :=
  let n := cylinderSlices numSlices
  let angleStep := 2 * pi / (n : K)
  let bottomCenter : Vertex K := ⟨0, 0, 0, 0, -1, 0, 1/2, 1/2⟩
  let bottomRim := (List.range (n + 1)).map (fun (i : ℕ) =>
    let angle := (i : K) * angleStep
    (⟨radius * cosf angle, 0, radius * sinf angle, 0, -1, 0,
      1/2 + 1/2 * cosf angle, 1/2 + 1/2 * sinf angle⟩ : Vertex K))
  let topCenter : Vertex K := ⟨0, height, 0, 0, 1, 0, 1/2, 1/2⟩
  let topRim := (List.range (n + 1)).map (fun (i : ℕ) =>
    let angle := (i : K) * angleStep
    (⟨radius * cosf angle, height, radius * sinf angle, 0, 1, 0,
      1/2 + 1/2 * cosf angle, 1/2 + 1/2 * sinf angle⟩ : Vertex K))
  let side := (List.range (n + 1)).flatMap (fun (i : ℕ) =>
    let angle := (i : K) * angleStep
    [(⟨radius * cosf angle, 0, radius * sinf angle,
       cosf angle, 0, sinf angle, (i : K) / (n : K), 1⟩ : Vertex K),
     (⟨radius * cosf angle, height, radius * sinf angle,
       cosf angle, 0, sinf angle, (i : K) / (n : K), 0⟩ : Vertex K)])
  bottomCenter :: bottomRim ++ topCenter :: topRim ++ side

/-- Index sequence of `LoadCylinderMesh`: bottom fan, top fan, then two
side triangles per slice. -/
def cylinderIndexList (numSlices : ℤ) : List ℕ :=
  let n := cylinderSlices numSlices
  let bottom := (List.range n).flatMap (fun i =>
    [0, i + 1, (i + 1) % n + 1])
  let top := (List.range n).flatMap (fun i =>
    [n + 2, n + 2 + i + 1, n + 2 + (i + 1) % n + 1])
  let sideStart := 2 * (n + 2)
  let side := (List.range n).flatMap (fun i =>
    [sideStart + i * 2, sideStart + i * 2 + 1, sideStart + (i + 1) * 2,
     sideStart + i * 2 + 1, sideStart + (i + 1) * 2, sideStart + (i + 1) * 2 + 1])
  bottom ++ top ++ side

/-- LoadCylinderMesh: interleaved float buffer plus index buffer. -/
def LoadCylinderMesh {K : Type} [LinearOrderedField K]
    (sinf cosf : K → K) (pi radius height : K) (numSlices : ℤ) :
    List K × List ℕ :=
  (flattenVerts (cylinderVertexList sinf cosf pi radius height numSlices),
   cylinderIndexList numSlices)

/-! ### LoadTubeMesh (`ShapeMeshes.cpp:1526`) -/

/-- The clamped slice count of `LoadTubeMesh`. -/
def tubeSlices (numSlices : ℤ) : ℕ :=
  (if numSlices < 3 then 3 else numSlices).toNat

/-- Vertex sequence of `LoadTubeMesh`: for each of the `n + 1` angular
samples, four vertices — outer bottom, outer top, inner bottom, inner
top — each with a purely vertical normal. -/
def tubeVertexList {K : Type} [LinearOrderedField K]
    (sinf cosf : K → K) (pi outerRadius innerRadius height : K)
    (numSlices : ℤ) : List (Vertex K) :=
  let n := tubeSlices numSlices
  let angleStep := 2 * pi / (n : K)
  (List.range (n + 1)).flatMap (fun (i : ℕ) =>
    let angle := (i : K) * angleStep
    let x := cosf angle
    let z := sinf angle
    [(⟨outerRadius * x, 0, outerRadius * z, 0, -1, 0, (i : K) / (n : K), 1⟩ : Vertex K),
     (⟨outerRadius * x, height, outerRadius * z, 0, 1, 0, (i : K) / (n : K), 0⟩ : Vertex K),
     (⟨innerRadius * x, 0, innerRadius * z, 0, -1, 0, (i : K) / (n : K), 1⟩ : Vertex K),
     (⟨innerRadius * x, height, innerRadius * z, 0, 1, 0, (i : K) / (n : K), 0⟩ : Vertex K)])

/-- Index sequence of `LoadTubeMesh`: outer and inner lateral walls, then
ring-shaped bottom and top caps.  Vertex `4*i + 0/1/2/3` is the outer
bottom / outer top / inner bottom / inner top vertex of angular sample
`i`. -/
def tubeIndexList (numSlices : ℤ) : List ℕ :=
  let n := tubeSlices numSlices
  let walls := (List.range n).flatMap (fun i =>
    [4 * i, 4 * i + 4, 4 * i + 1,
     4 * i + 1, 4 * i + 4, 4 * i + 5,
     4 * i + 2, 4 * i + 3, 4 * i + 6,
     4 * i + 3, 4 * i + 7, 4 * i + 6])
  let caps := (List.range n).flatMap (fun i =>
    [4 * i, 4 * i + 4, 4 * i + 2,
     4 * i + 2, 4 * i + 4, 4 * i + 6,
     4 * i + 3, 4 * i + 1, 4 * i + 7,
     4 * i + 7, 4 * i + 1, 4 * i + 5])
  walls ++ caps

/-- LoadTubeMesh: interleaved float buffer plus index buffer. -/
def LoadTubeMesh {K : Type} [LinearOrderedField K]
    (sinf cosf : K → K) (pi outerRadius innerRadius height : K)
    (numSlices : ℤ) : List K × List ℕ :=
  (flattenVerts (tubeVertexList sinf cosf pi outerRadius innerRadius height numSlices),
   tubeIndexList numSlices)

/-! ### LoadSpringMesh (`ShapeMeshes.cpp:1425`) -/

/-- The clamped main-segment count of `LoadSpringMesh`:
`mainSegments = std::max(1, mainSegments);`. -/
def springMainSegments (mainSegments : ℤ) : ℤ := max 1 mainSegments

/-- The clamped tube-segment count of `LoadSpringMesh`:
`tubeSegments = std::max(8, tubeSegments);`. -/
def springTubeSegments (tubeSegments : ℤ) : ℤ := max 8 tubeSegments

/-- The vertex emitted by `LoadSpringMesh` for helix sample `i` and tube
sample `j` (after clamping).  The tangent of the helix is normalized, a
perpendicular `normal` is derived from it, `binormal = tangent × normal`,
and the cross-section point and its shading normal are radial offsets in
the `(normal, binormal)` frame. -/
def springVertex {K : Type} [LinearOrderedField K]
    (sinf cosf sqrtf : K → K) (pi mainRadius tubeRadius : K)
    (mainSegments tubeSegments : ℤ) (springLength : K) (i j : ℕ) :
    Vertex K :=
  let ms := springMainSegments mainSegments
  let ts := springTubeSegments tubeSegments
  let mainAngleStep := 2 * pi / (ts : K)
  let heightStep := springLength / ((ms * ts : ℤ) : K)
  let mainAngle := (i : K) * mainAngleStep
  let centerX := mainRadius * cosf mainAngle
  let centerY := mainRadius * sinf mainAngle
  let centerZ := (i : K) * heightStep
  let tangent := normalize3 sqrtf
    ⟨-mainRadius * sinf mainAngle, mainRadius * cosf mainAngle, heightStep⟩
  let normal := normalize3 sqrtf ⟨-tangent.y, tangent.x, 0⟩
  let binormal := cross3 tangent normal
  let tubeAngle := (j : K) * 2 * pi / (ts : K)
  let tx := tubeRadius * cosf tubeAngle
  let ty := tubeRadius * sinf tubeAngle
  let point := add3 (add3 ⟨centerX, centerY, centerZ⟩ (smul3 tx normal)) (smul3 ty binormal)
  let normalVector := normalize3 sqrtf (add3 (smul3 tx normal) (smul3 ty binormal))
  ⟨point.x, point.y, point.z, normalVector.x, normalVector.y, normalVector.z,
   (i : K) / ((ms * ts : ℤ) : K), (j : K) / (ts : K)⟩

/-- Vertex sequence of `LoadSpringMesh`: `mainSegments * tubeSegments + 1`
rings of `tubeSegments + 1` cross-section vertices. -/
def springVertexList {K : Type} [LinearOrderedField K]
    (sinf cosf sqrtf : K → K) (pi mainRadius tubeRadius : K)
    (mainSegments tubeSegments : ℤ) (springLength : K) :
    List (Vertex K) :=
  let ms := springMainSegments mainSegments
  let ts := springTubeSegments tubeSegments
  (List.range ((ms * ts).toNat + 1)).flatMap (fun (i : ℕ) =>
    (List.range (ts.toNat + 1)).map (fun (j : ℕ) =>
      springVertex sinf cosf sqrtf pi mainRadius tubeRadius
        mainSegments tubeSegments springLength i j))

/-- Index sequence of `LoadSpringMesh`: two triangles per
`(helix step, tube step)` cell. -/
def springIndexList (mainSegments tubeSegments : ℤ) : List ℕ :=
  let ms := springMainSegments mainSegments
  let ts := springTubeSegments tubeSegments
  (List.range (ms * ts).toNat).flatMap (fun i =>
    (List.range ts.toNat).flatMap (fun j =>
      let current := i * (ts.toNat + 1) + j
      let next := (i + 1) * (ts.toNat + 1) + j
      [current, next, current + 1, current + 1, next, next + 1]))

/-- LoadSpringMesh: interleaved float buffer plus index buffer. -/
def LoadSpringMesh {K : Type} [LinearOrderedField K]
    (sinf cosf sqrtf : K → K) (pi mainRadius tubeRadius : K)
    (mainSegments tubeSegments : ℤ) (springLength : K) :
    List K × List ℕ :=
  (flattenVerts (springVertexList sinf cosf sqrtf pi mainRadius tubeRadius
     mainSegments tubeSegments springLength),
   springIndexList mainSegments tubeSegments)

/-! ### DrawPartialConeMesh (`ShapeMeshes.cpp:1724`)

This shape is regenerated on every draw call; we model the geometry it
builds and uploads. -/

/-- The clamped slice count of `DrawPartialConeMesh`. -/
def partialConeSlices (numSlices : ℤ) : ℕ :=
  (if numSlices < 3 then 3 else numSlices).toNat

/-- The clamped sweep angle of `DrawPartialConeMesh`:
`glm::clamp(arcDegrees, 0.0f, 360.0f) = min(max(arcDegrees, 0), 360)`. -/
def partialConeArc {K : Type} [LinearOrderedField K] (arcDegrees : K) : K :=
  min (max arcDegrees 0) 360

/-- Vertex sequence of `DrawPartialConeMesh`: for each of the `n + 1`
angular samples a bottom vertex (index `2*i`) and an apex copy
(index `2*i + 1`). -/
def partialConeVertexList {K : Type} [LinearOrderedField K]
    (sinf cosf sqrtf : K → K) (pi radius height : K) (numSlices : ℤ)
    (arcDegrees : K) : List (Vertex K) :=
  let n := partialConeSlices numSlices
  let arcRadians := partialConeArc arcDegrees * pi / 180
  let angleStep := arcRadians / (n : K)
  let halfArc := arcRadians * (1/2)
  (List.range (n + 1)).flatMap (fun (i : ℕ) =>
    let angle := -halfArc + (i : K) * angleStep
    let x := radius * cosf angle
    let z := radius * sinf angle
    let u := (i : K) / (n : K)
    let nv := normalize3 sqrtf ⟨cosf angle, radius / height, sinf angle⟩
    [(⟨x, 0, z, nv.x, nv.y, nv.z, u, 1⟩ : Vertex K),
     (⟨0, height, 0, nv.x, nv.y, nv.z, u, 0⟩ : Vertex K)])

/-- Triangle sequence of `DrawPartialConeMesh`: two triangles per slice,
`(2i, 2(i+1)+1, 2i+1)` and `(2i, 2(i+1), 2(i+1)+1)`. -/
def partialConeTriangleList (numSlices : ℤ) : List (ℕ × ℕ × ℕ) :=
  let n := partialConeSlices numSlices
  (List.range n).flatMap (fun i =>
    [(2 * i, 2 * (i + 1) + 1, 2 * i + 1),
     (2 * i, 2 * (i + 1), 2 * (i + 1) + 1)])

/-- Index sequence of `DrawPartialConeMesh`: the triangles flattened in
emission order. -/
def partialConeIndexList (numSlices : ℤ) : List ℕ :=
  (partialConeTriangleList numSlices).flatMap (fun t => [t.1, t.2.1, t.2.2])

/-- DrawPartialConeMesh: interleaved float buffer plus index buffer of the
geometry built (and uploaded) by each call. -/
def DrawPartialConeMesh {K : Type} [LinearOrderedField K]
    (sinf cosf sqrtf : K → K) (pi radius height : K) (numSlices : ℤ)
    (arcDegrees : K) : List K × List ℕ :=
  (flattenVerts (partialConeVertexList sinf cosf sqrtf pi radius height numSlices arcDegrees),
   partialConeIndexList numSlices)

/-! ### DrawSineConeMesh (`ShapeMeshes.cpp:3234`)

Regenerated on every draw call against a pre-allocated buffer; we model
the geometry construction.  The source uses the literal `3.14159265f`
here instead of `Constants::Pi`; both are idealised as the parameter
`pi`, and `pow(1.0f - t, 0.65f)` is modelled as `powf (1 - t) (13/20)`. -/

/-- Grid positions of `DrawSineConeMesh`: `(heightSegments + 1)` rows of
`(radialSegments + 1)` samples, with tapered, flattened, sine-offset
cross-sections; the X axis is the height axis. -/
def sineConePositions {K : Type} [LinearOrderedField K]
    (sinf cosf sqrtf : K → K) (powf : K → K → K)
    (pi baseRadius height flattenFactor sineAmplitude sineFrequency sinePhase : K)
    (radialSegments heightSegments : ℤ) : List (Vec3 K) :=
  let radialStep := 2 * pi / (radialSegments : K)
  let heightStep := height / (heightSegments : K)
  (List.range (heightSegments + 1).toNat).flatMap (fun (i : ℕ) =>
    let h := (i : K) * heightStep
    let t := (i : K) / (heightSegments : K)
    let taper := powf (1 - t) (13/20)
    let radius := baseRadius * taper
    let sineOffset := sineAmplitude * sinf (sineFrequency * t * 2 * pi + sinePhase)
    (List.range (radialSegments + 1).toNat).map (fun (j : ℕ) =>
      let theta := (j : K) * radialStep
      let radial := normalize3 sqrtf ⟨0, cosf theta, sinf theta⟩
      let offset := smul3 radius radial
      (⟨h, offset.y * (1 - flattenFactor) + sineOffset, offset.z⟩ : Vec3 K)))

/-- The `(i, j)` cells of the sine-cone grid, in loop order. -/
def sineConeCells (radialSegments heightSegments : ℤ) : List (ℕ × ℕ) :=
  (List.range heightSegments.toNat).flatMap (fun i =>
    (List.range radialSegments.toNat).map (fun j => (i, j)))

/-- One accumulation step of `DrawSineConeMesh`: the two face normals of
cell `(i, j)` (cross products of the triangle edges), weighted by their
own magnitude, are added to the four corner accumulators. -/
def sineConeAccumStep {K : Type} [LinearOrderedField K] (sqrtf : K → K)
    (positions : List (Vec3 K)) (radialSegments : ℤ)
    (normals : List (Vec3 K)) (cell : ℕ × ℕ) : List (Vec3 K) :=
  let cols := (radialSegments + 1).toNat
  let i0 := cell.1 * cols + cell.2
  let i1 := (cell.1 + 1) * cols + cell.2
  let i2 := cell.1 * cols + cell.2 + 1
  let i3 := (cell.1 + 1) * cols + cell.2 + 1
  let z : Vec3 K := ⟨0, 0, 0⟩
  let p0 := positions.getD i0 z
  let p1 := positions.getD i1 z
  let p2 := positions.getD i2 z
  let p3 := positions.getD i3 z
  let n0 := cross3 ⟨p1.x - p0.x, p1.y - p0.y, p1.z - p0.z⟩
                   ⟨p2.x - p0.x, p2.y - p0.y, p2.z - p0.z⟩
  let n1 := cross3 ⟨p3.x - p2.x, p3.y - p2.y, p3.z - p2.z⟩
                   ⟨p1.x - p2.x, p1.y - p2.y, p1.z - p2.z⟩
  let area0 := sqrtf (dot3 n0 n0)
  let area1 := sqrtf (dot3 n1 n1)
  let mid := smul3 ((1/2) * (area0 + area1)) (add3 n0 n1)
  let a1 := normals.set i0 (add3 (normals.getD i0 z) (smul3 area0 n0))
  let a2 := a1.set i1 (add3 (a1.getD i1 z) mid)
  let a3 := a2.set i2 (add3 (a2.getD i2 z) mid)
  a3.set i3 (add3 (a3.getD i3 z) (smul3 area1 n1))

/-- The accumulated (pre-normalization) vertex normals of
`DrawSineConeMesh`. -/
def sineConeAccumNormals {K : Type} [LinearOrderedField K]
    (sinf cosf sqrtf : K → K) (powf : K → K → K)
    (pi baseRadius height flattenFactor sineAmplitude sineFrequency sinePhase : K)
    (radialSegments heightSegments : ℤ) : List (Vec3 K) :=
  let positions := sineConePositions sinf cosf sqrtf powf pi baseRadius height
    flattenFactor sineAmplitude sineFrequency sinePhase radialSegments heightSegments
  (sineConeCells radialSegments heightSegments).foldl
    (sineConeAccumStep sqrtf positions radialSegments)
    (List.replicate positions.length ⟨0, 0, 0⟩)

/-- Vertex sequence of `DrawSineConeMesh`: each grid position packed with
its normalized accumulated normal and cylindrical UVs. -/
def sineConeVertexList {K : Type} [LinearOrderedField K]
    (sinf cosf sqrtf : K → K) (powf : K → K → K)
    (pi baseRadius height flattenFactor sineAmplitude sineFrequency sinePhase : K)
    (radialSegments heightSegments : ℤ) : List (Vertex K) :=
  let positions := sineConePositions sinf cosf sqrtf powf pi baseRadius height
    flattenFactor sineAmplitude sineFrequency sinePhase radialSegments heightSegments
  let accum := sineConeAccumNormals sinf cosf sqrtf powf pi baseRadius height
    flattenFactor sineAmplitude sineFrequency sinePhase radialSegments heightSegments
  let cols := (radialSegments + 1).toNat
  (List.range positions.length).map (fun (k : ℕ) =>
    let pos := positions.getD k ⟨0, 0, 0⟩
    let norm := normalize3 sqrtf (accum.getD k ⟨0, 0, 0⟩)
    ⟨pos.x, pos.y, pos.z, norm.x, norm.y, norm.z,
     ((k % cols : ℕ) : K) / (radialSegments : K),
     ((k / cols : ℕ) : K) / (heightSegments : K)⟩)

/-- Index sequence of `DrawSineConeMesh`: two triangles per grid cell. -/
def sineConeIndexList (radialSegments heightSegments : ℤ) : List ℕ :=
  let cols := (radialSegments + 1).toNat
  (sineConeCells radialSegments heightSegments).flatMap (fun cell =>
    let curr := cell.1 * cols + cell.2
    let next := (cell.1 + 1) * cols + cell.2
    [curr, next, curr + 1, curr + 1, next, next + 1])

/-- DrawSineConeMesh: interleaved float buffer plus index buffer of the
geometry built (and uploaded) by each call. -/
def DrawSineConeMesh {K : Type} [LinearOrderedField K]
    (sinf cosf sqrtf : K → K) (powf : K → K → K)
    (pi baseRadius height flattenFactor sineAmplitude sineFrequency sinePhase : K)
    (radialSegments heightSegments : ℤ) : List K × List ℕ :=
  (flattenVerts (sineConeVertexList sinf cosf sqrtf powf pi baseRadius height
     flattenFactor sineAmplitude sineFrequency sinePhase radialSegments heightSegments),
   sineConeIndexList radialSegments heightSegments)

/-! ### LoadBoxMesh (`ShapeMeshes.cpp:113`) -/

/-- Index sequence of `LoadBoxMesh`: two triangles per face over 24
explicit vertices. -/
def boxIndexList : List ℕ :=
  [0, 1, 2, 2, 3, 0,
   4, 5, 6, 6, 7, 4,
   8, 9, 10, 10, 11, 8,
   12, 13, 14, 14, 15, 12,
   16, 17, 18, 18, 19, 16,
   20, 21, 22, 22, 23, 20]

/-- Vertex sequence of `LoadBoxMesh`: 24 explicit vertices, four per face
with that face's flat normal. -/
def boxVertexList {K : Type} [LinearOrderedField K] : List (Vertex K) :=
  [⟨1/2, 1/2, -1/2, 0, 0, -1, 0, 1⟩, ⟨1/2, -1/2, -1/2, 0, 0, -1, 0, 0⟩,
   ⟨-1/2, -1/2, -1/2, 0, 0, -1, 1, 0⟩, ⟨-1/2, 1/2, -1/2, 0, 0, -1, 1, 1⟩,
   ⟨-1/2, -1/2, 1/2, 0, -1, 0, 0, 1⟩, ⟨-1/2, -1/2, -1/2, 0, -1, 0, 0, 0⟩,
   ⟨1/2, -1/2, -1/2, 0, -1, 0, 1, 0⟩, ⟨1/2, -1/2, 1/2, 0, -1, 0, 1, 1⟩,
   ⟨-1/2, 1/2, -1/2, -1, 0, 0, 0, 1⟩, ⟨-1/2, -1/2, -1/2, -1, 0, 0, 0, 0⟩,
   ⟨-1/2, -1/2, 1/2, -1, 0, 0, 1, 0⟩, ⟨-1/2, 1/2, 1/2, -1, 0, 0, 1, 1⟩,
   ⟨1/2, 1/2, 1/2, 1, 0, 0, 0, 1⟩, ⟨1/2, -1/2, 1/2, 1, 0, 0, 0, 0⟩,
   ⟨1/2, -1/2, -1/2, 1, 0, 0, 1, 0⟩, ⟨1/2, 1/2, -1/2, 1, 0, 0, 1, 1⟩,
   ⟨-1/2, 1/2, -1/2, 0, 1, 0, 0, 1⟩, ⟨-1/2, 1/2, 1/2, 0, 1, 0, 0, 0⟩,
   ⟨1/2, 1/2, 1/2, 0, 1, 0, 1, 0⟩, ⟨1/2, 1/2, -1/2, 0, 1, 0, 1, 1⟩,
   ⟨-1/2, 1/2, 1/2, 0, 0, 1, 0, 1⟩, ⟨-1/2, -1/2, 1/2, 0, 0, 1, 0, 0⟩,
   ⟨1/2, -1/2, 1/2, 0, 0, 1, 1, 0⟩, ⟨1/2, 1/2, 1/2, 0, 0, 1, 1, 1⟩]

/-- LoadBoxMesh: interleaved float buffer plus index buffer. -/
def LoadBoxMesh {K : Type} [LinearOrderedField K] : List K × List ℕ :=
  (flattenVerts boxVertexList, boxIndexList)

/-! ### The one-time attribute-layout flag (`ShapeMeshes.cpp:93`,
`ShapeMeshes.h:251`)

`InitializeMesh` runs `SetShaderMemoryLayout()` whenever
`m_bMemoryLayoutDone` is false.  `SetShaderMemoryLayout`
(`ShapeMeshes.cpp:2562`) only issues `glVertexAttribPointer` /
`glEnableVertexAttribArray` calls; no statement in the translation unit
ever assigns `m_bMemoryLayoutDone`, so it keeps its initializer value
`false`.  We track the flag plus a ghost counter of how many times the
layout binding has executed. -/

structure ShapeMeshesState where
  m_bMemoryLayoutDone : Bool
  layoutCalls : ℕ
deriving DecidableEq

/-- The freshly constructed `ShapeMeshes` object: the member initializer
sets `m_bMemoryLayoutDone = false`, and no layout call has run. -/
def initialShapeMeshesState : ShapeMeshesState :=
  ⟨false, 0⟩

/-- SetShaderMemoryLayout: binds the attribute layout (counted by the
ghost field); it does not modify `m_bMemoryLayoutDone`. -/
def SetShaderMemoryLayout (s : ShapeMeshesState) : ShapeMeshesState :=
  { s with layoutCalls := s.layoutCalls + 1 }

/-- The guard in `InitializeMesh`:
`if (!m_bMemoryLayoutDone) { SetShaderMemoryLayout(); }`. -/
def initializeMeshLayoutStep (s : ShapeMeshesState) : ShapeMeshesState :=
  if s.m_bMemoryLayoutDone = false then SetShaderMemoryLayout s else s

/-! ### List helpers: loops that emit a constant number of elements -/

/-- Length of a `flatMap` over `List.range` whose blocks all have length
`c`. -/
lemma length_range_flatMap {α : Type} (f : ℕ → List α) (A c : ℕ)
    (h : ∀ i, (f i).length = c) :
    ((List.range A).flatMap f).length = A * c := by
  induction A with
  | zero => simp
  | succ A ih =>
    rw [List.range_succ, List.flatMap_append, List.length_append, ih]
    simp [h, Nat.succ_mul]

/-- Random access into a `flatMap` over `List.range` with constant block
length: element `a * c + b` is element `b` of block `a`. -/
lemma getD_range_flatMap {α : Type} (f : ℕ → List α) (A c a b : ℕ) (d : α)
    (h : ∀ i, (f i).length = c) (ha : a < A) (hb : b < c) :
    ((List.range A).flatMap f).getD (a * c + b) d = (f a).getD b d := by
  induction A with
  | zero => omega
  | succ A ih =>
    rw [List.range_succ, List.flatMap_append]
    rcases Nat.lt_or_ge a A with hA | hA
    · rw [List.getD_append]
      · exact ih hA
      · rw [length_range_flatMap f A c h]
        calc a * c + b < a * c + c := by omega
          _ = (a + 1) * c := by ring
          _ ≤ A * c := Nat.mul_le_mul_right c (by omega)
    · have haA : a = A := by omega
      subst haA
      rw [List.getD_append_right]
      · rw [length_range_flatMap f a c h]
        have : a * c + b - a * c = b := by omega
        rw [this]
        show (f a ++ [].flatMap f).getD b d = (f a).getD b d
        rw [List.getD_append]
        rw [h]
        exact hb
      · rw [length_range_flatMap f a c h]
        omega

/-- Arity-specialised corollary of `length_range_flatMap` for two-element
blocks (stated with per-element functions so it unifies under `rw`). -/
lemma length_range_flatMap_pair {α : Type} (f g : ℕ → α) (A : ℕ) :
    ((List.range A).flatMap (fun i => [f i, g i])).length = A * 2 :=
  length_range_flatMap _ A 2 (fun _ => rfl)

/-- Arity-specialised corollary of `length_range_flatMap` for
three-element blocks. -/
lemma length_range_flatMap_three {α : Type} (f g h : ℕ → α) (A : ℕ) :
    ((List.range A).flatMap (fun i => [f i, g i, h i])).length = A * 3 :=
  length_range_flatMap _ A 3 (fun _ => rfl)

/-- Arity-specialised corollary of `length_range_flatMap` for
four-element blocks. -/
lemma length_range_flatMap_four {α : Type} (f g h k : ℕ → α) (A : ℕ) :
    ((List.range A).flatMap (fun i => [f i, g i, h i, k i])).length = A * 4 :=
  length_range_flatMap _ A 4 (fun _ => rfl)

/-- Arity-specialised corollary of `length_range_flatMap` for six-element
blocks. -/
lemma length_range_flatMap_six {α : Type} (f g h k l m : ℕ → α) (A : ℕ) :
    ((List.range A).flatMap (fun i => [f i, g i, h i, k i, l i, m i])).length
      = A * 6 :=
  length_range_flatMap _ A 6 (fun _ => rfl)

/-- Arity-specialised corollary of `length_range_flatMap` for
twelve-element blocks. -/
lemma length_range_flatMap_twelve {α : Type}
    (f1 f2 f3 f4 f5 f6 f7 f8 f9 f10 f11 f12 : ℕ → α) (A : ℕ) :
    ((List.range A).flatMap (fun i =>
      [f1 i, f2 i, f3 i, f4 i, f5 i, f6 i,
       f7 i, f8 i, f9 i, f10 i, f11 i, f12 i])).length = A * 12 :=
  length_range_flatMap _ A 12 (fun _ => rfl)

/-- Corollary of `length_range_flatMap` for blocks that are themselves
`map`s over a range. -/
lemma length_range_flatMap_map {α : Type} (g : ℕ → ℕ → α) (A B : ℕ) :
    ((List.range A).flatMap (fun i => (List.range B).map (g i))).length
      = A * B :=
  length_range_flatMap _ A B (fun _ => by simp)

/-- The interleaved buffer holds 8 floats per vertex. -/
lemma flattenVerts_length {K : Type} (l : List (Vertex K)) :
    (flattenVerts l).length = 8 * l.length := by
  induction l with
  | nil => simp [flattenVerts]
  | cons v t ih =>
    simp only [flattenVerts, List.flatMap_cons, List.length_append, List.length_cons] at *
    simp only [Vertex.toFloats, List.length_cons, List.length_nil] at *
    omega

/-- `InitializeMesh`'s vertex count recovers the vertex-record count. -/
lemma nVerticesOf_flattenVerts {K : Type} (l : List (Vertex K)) :
    nVerticesOf (flattenVerts l) = l.length := by
  rw [nVerticesOf, flattenVerts_length]
  omega

/-! ### Vertex-count lemmas -/

lemma coneVertexList_length {K : Type} [LinearOrderedField K]
    (sinf cosf sqrtf : K → K) (pi radius height : K) (numSlices : ℤ) :
    (coneVertexList sinf cosf sqrtf pi radius height numSlices).length
      = 3 * coneSlices numSlices + 2 := by
  simp only [coneVertexList, List.length_cons, List.length_append, List.length_map,
    List.length_range]
  rw [length_range_flatMap_pair]
  omega

lemma sphereVertexList_length {K : Type} [LinearOrderedField K]
    (sinf cosf : K → K) (pi : K) (latitudeSegments longitudeSegments : ℤ)
    (radius : K) :
    (sphereVertexList sinf cosf pi latitudeSegments longitudeSegments radius).length
      = (latitudeSegments + 1).toNat * (longitudeSegments + 1).toNat := by
  simp only [sphereVertexList]
  rw [length_range_flatMap_map]

lemma cylinderVertexList_length {K : Type} [LinearOrderedField K]
    (sinf cosf : K → K) (pi radius height : K) (numSlices : ℤ) :
    (cylinderVertexList sinf cosf pi radius height numSlices).length
      = 4 * cylinderSlices numSlices + 6 := by
  simp only [cylinderVertexList, List.length_cons, List.length_append, List.length_map,
    List.length_range]
  rw [length_range_flatMap_pair]
  omega

lemma tubeVertexList_length {K : Type} [LinearOrderedField K]
    (sinf cosf : K → K) (pi outerRadius innerRadius height : K)
    (numSlices : ℤ) :
    (tubeVertexList sinf cosf pi outerRadius innerRadius height numSlices).length
      = 4 * (tubeSlices numSlices + 1) := by
  simp only [tubeVertexList]
  rw [length_range_flatMap_four]
  omega

lemma springVertexList_length {K : Type} [LinearOrderedField K]
    (sinf cosf sqrtf : K → K) (pi mainRadius tubeRadius : K)
    (mainSegments tubeSegments : ℤ) (springLength : K) :
    (springVertexList sinf cosf sqrtf pi mainRadius tubeRadius
        mainSegments tubeSegments springLength).length
      = ((springMainSegments mainSegments * springTubeSegments tubeSegments).toNat + 1)
          * ((springTubeSegments tubeSegments).toNat + 1) := by
  simp only [springVertexList]
  rw [length_range_flatMap_map]

lemma partialConeVertexList_length {K : Type} [LinearOrderedField K]
    (sinf cosf sqrtf : K → K) (pi radius height : K) (numSlices : ℤ)
    (arcDegrees : K) :
    (partialConeVertexList sinf cosf sqrtf pi radius height numSlices arcDegrees).length
      = 2 * (partialConeSlices numSlices + 1) := by
  simp only [partialConeVertexList]
  rw [length_range_flatMap_pair]
  omega

lemma sineConePositions_length {K : Type} [LinearOrderedField K]
    (sinf cosf sqrtf : K → K) (powf : K → K → K)
    (pi baseRadius height flattenFactor sineAmplitude sineFrequency sinePhase : K)
    (radialSegments heightSegments : ℤ) :
    (sineConePositions sinf cosf sqrtf powf pi baseRadius height flattenFactor
        sineAmplitude sineFrequency sinePhase radialSegments heightSegments).length
      = (heightSegments + 1).toNat * (radialSegments + 1).toNat := by
  simp only [sineConePositions]
  rw [length_range_flatMap_map]

lemma sineConeVertexList_length {K : Type} [LinearOrderedField K]
    (sinf cosf sqrtf : K → K) (powf : K → K → K)
    (pi baseRadius height flattenFactor sineAmplitude sineFrequency sinePhase : K)
    (radialSegments heightSegments : ℤ) :
    (sineConeVertexList sinf cosf sqrtf powf pi baseRadius height flattenFactor
        sineAmplitude sineFrequency sinePhase radialSegments heightSegments).length
      = (heightSegments + 1).toNat * (radialSegments + 1).toNat := by
  simp only [sineConeVertexList, List.length_map, List.length_range]
  rw [sineConePositions_length]

/-- Every generator's clamped slice count is at least 3 where a 3-clamp
exists in the source. -/
lemma coneSlices_ge (numSlices : ℤ) : 3 ≤ coneSlices numSlices := by
  unfold coneSlices
  split <;> omega

lemma cylinderSlices_ge (numSlices : ℤ) : 3 ≤ cylinderSlices numSlices := by
  unfold cylinderSlices
  split <;> omega

lemma tubeSlices_ge (numSlices : ℤ) : 3 ≤ tubeSlices numSlices := by
  unfold tubeSlices
  split <;> omega

lemma partialConeSlices_ge (numSlices : ℤ) : 3 ≤ partialConeSlices numSlices := by
  unfold partialConeSlices
  split <;> omega

/-! ### Clamp idempotence lemmas -/

lemma coneSlices_clamp (s : ℤ) : coneSlices (max 3 s) = coneSlices s := by
  unfold coneSlices
  split <;> split <;> omega

lemma cylinderSlices_clamp (s : ℤ) : cylinderSlices (max 3 s) = cylinderSlices s := by
  unfold cylinderSlices
  split <;> split <;> omega

lemma tubeSlices_clamp (s : ℤ) : tubeSlices (max 3 s) = tubeSlices s := by
  unfold tubeSlices
  split <;> split <;> omega

lemma partialConeSlices_clamp (s : ℤ) :
    partialConeSlices (max 3 s) = partialConeSlices s := by
  unfold partialConeSlices
  split <;> split <;> omega

lemma springMainSegments_clamp (ms : ℤ) :
    springMainSegments (max 1 ms) = springMainSegments ms := by
  unfold springMainSegments
  omega

lemma springTubeSegments_clamp (ts : ℤ) :
    springTubeSegments (max 8 ts) = springTubeSegments ts := by
  unfold springTubeSegments
  omega

lemma partialConeArc_clamp {K : Type} [LinearOrderedField K] (arc : K) :
    partialConeArc (min (max arc 0) 360) = partialConeArc arc := by
  unfold partialConeArc
  rcases le_total arc 0 with h | h <;> rcases le_total arc 360 with h2 | h2 <;>
    simp [min_def, max_def] <;> split_ifs <;> linarith

/-! ## Claim C4 — cone counts at `numSlices = 3` -/

/-- Claim C4: `LoadConeMesh` with `numSlices = 3` produces exactly 11
vertices (1 bottom-center + 3 bottom-ring + 1 apex + 6 side-ring) and
exactly 18 indices (9 for the bottom fan + 9 for the sides), for every
scalar model and every radius and height. -/
theorem claim_cone_counts {K : Type} [LinearOrderedField K]
    (sinf cosf sqrtf : K → K) (pi radius height : K) :
    nVerticesOf (LoadConeMesh sinf cosf sqrtf pi radius height 3).1 = 11 ∧
    (LoadConeMesh sinf cosf sqrtf pi radius height 3).2.length = 18 := by
  constructor
  · show nVerticesOf (flattenVerts (coneVertexList sinf cosf sqrtf pi radius height 3)) = 11
    rw [nVerticesOf_flattenVerts, coneVertexList_length]
    decide
  · show (coneIndexList 3).length = 18
    decide

/-! ## Claim C8 — determinism of the generators -/

/-- Claim C8: every generator is deterministic — two invocations with
identical parameter values produce identical vertex and index buffers.
(In the embedding the generators read no mutable state, so equality of
parameters transports to equality of outputs.) -/
theorem claim_determinism {K : Type} [LinearOrderedField K]
    (sinf cosf sqrtf : K → K) (powf : K → K → K) (pi : K) :
    (∀ (r h r2 h2 : K) (s s2 : ℤ), r = r2 → h = h2 → s = s2 →
      LoadConeMesh sinf cosf sqrtf pi r h s = LoadConeMesh sinf cosf sqrtf pi r2 h2 s2) ∧
    (∀ (r h r2 h2 : K) (s s2 : ℤ), r = r2 → h = h2 → s = s2 →
      LoadCylinderMesh sinf cosf pi r h s = LoadCylinderMesh sinf cosf pi r2 h2 s2) ∧
    (∀ (r r2 : K) (la lo la2 lo2 : ℤ), la = la2 → lo = lo2 → r = r2 →
      LoadSphereMesh sinf cosf pi la lo r = LoadSphereMesh sinf cosf pi la2 lo2 r2) ∧
    (∀ (a b h a2 b2 h2 : K) (s s2 : ℤ), a = a2 → b = b2 → h = h2 → s = s2 →
      LoadTubeMesh sinf cosf pi a b h s = LoadTubeMesh sinf cosf pi a2 b2 h2 s2) ∧
    (∀ (mr tr l mr2 tr2 l2 : K) (ms ts ms2 ts2 : ℤ),
      mr = mr2 → tr = tr2 → ms = ms2 → ts = ts2 → l = l2 →
      LoadSpringMesh sinf cosf sqrtf pi mr tr ms ts l
        = LoadSpringMesh sinf cosf sqrtf pi mr2 tr2 ms2 ts2 l2) ∧
    (∀ (r h arc r2 h2 arc2 : K) (s s2 : ℤ), r = r2 → h = h2 → s = s2 → arc = arc2 →
      DrawPartialConeMesh sinf cosf sqrtf pi r h s arc
        = DrawPartialConeMesh sinf cosf sqrtf pi r2 h2 s2 arc2) ∧
    (∀ (br h ff am fr ph br2 h2 ff2 am2 fr2 ph2 : K) (rs hs rs2 hs2 : ℤ),
      br = br2 → h = h2 → ff = ff2 → am = am2 → fr = fr2 → ph = ph2 →
      rs = rs2 → hs = hs2 →
      DrawSineConeMesh sinf cosf sqrtf powf pi br h ff am fr ph rs hs
        = DrawSineConeMesh sinf cosf sqrtf powf pi br2 h2 ff2 am2 fr2 ph2 rs2 hs2) := by
  refine ⟨?_, ?_, ?_, ?_, ?_, ?_, ?_⟩ <;>
    · intros
      subst_vars
      rfl

/-- Witness for C8: the determinism theorem applied at concrete
parameters over `ℚ` with all hypotheses discharged. -/
theorem claim_determinism_witness :
    LoadConeMesh (K := ℚ) (fun _ => 0) (fun _ => 0) (fun _ => 0) 0 1 2 5
      = LoadConeMesh (fun _ => 0) (fun _ => 0) (fun _ => 0) 0 1 2 5 :=
  (claim_determinism (fun _ => 0) (fun _ => 0) (fun _ => 0) (fun _ _ => 0) 0).1
    1 2 1 2 5 5 rfl rfl rfl

/-! ## Claim C9 — vertex count versus buffer byte length -/

/-- Counterexample to claim C9: the stored vertex count is the float
count divided by 8, not the byte length divided by 8.  For a buffer of
one vertex (8 floats, 32 bytes) `InitializeMesh` stores 1, while the
byte length divided by 8 is 4. -/
theorem claim_byte_length_counterexample :
    (InitializeMesh ⟨0, 0, 0⟩ (List.replicate 8 (0 : ℚ)) []).nVertices = 1 ∧
    vertexBufferByteLength (List.replicate 8 (0 : ℚ)) / 8 = 4 ∧
    (InitializeMesh ⟨0, 0, 0⟩ (List.replicate 8 (0 : ℚ)) []).nVertices
      ≠ vertexBufferByteLength (List.replicate 8 (0 : ℚ)) / 8 := by
  decide

/-- Claim C9 as amended: for every generated mesh the stored vertex count
equals the number of interleaved floats divided by 8 — equivalently, the
byte length of the raw buffer divided by 32 (a `GLfloat` is 4 bytes). -/
theorem claim_vertex_count_amended {K : Type} (mesh : GLMesh)
    (verts : List K) (indices : List ℕ) :
    (InitializeMesh mesh verts indices).nVertices = verts.length / 8 ∧
    (InitializeMesh mesh verts indices).nVertices
      = vertexBufferByteLength verts / 32 := by
  refine ⟨rfl, ?_⟩
  show verts.length / 8 = 4 * verts.length / 32
  omega

/-! ## Claim C3 — the one-time layout flag -/

/-- Claim C3 is a code bug: `SetShaderMemoryLayout` is guarded by
`m_bMemoryLayoutDone`, but no statement in the translation unit ever sets
that flag (its own declaration comments "Ensures memory layout is only
set once").  Consequently the flag stays `false` forever and the layout
binding runs on every mesh initialization: after two initializations on a
fresh object the binding has executed twice, where the claim (and the
header comment) require it to have executed once. -/
theorem claim_layout_flag_bug :
    (initializeMeshLayoutStep (initializeMeshLayoutStep initialShapeMeshesState)).layoutCalls
        = 2 ∧
    ∀ s : ShapeMeshesState,
      (initializeMeshLayoutStep s).m_bMemoryLayoutDone = s.m_bMemoryLayoutDone := by
  constructor
  · decide
  · intro s
    unfold initializeMeshLayoutStep SetShaderMemoryLayout
    split <;> rfl

/-! ## Claim C10 — tube normals are all vertical -/

/-- Claim C10: every vertex emitted by `LoadTubeMesh` carries a vertical
normal — `(0,-1,0)` on the bottom ring (`y = 0`), `(0,1,0)` on the top
ring (`y = height`) — for outer and inner rings alike; no radial or
inward normal is ever emitted. -/
theorem claim_tube_vertical_normals {K : Type} [LinearOrderedField K]
    (sinf cosf : K → K) (pi outerRadius innerRadius height : K)
    (numSlices : ℤ) :
    ∀ vt ∈ tubeVertexList sinf cosf pi outerRadius innerRadius height numSlices,
      (vt.py = 0 ∧ vt.nx = 0 ∧ vt.ny = -1 ∧ vt.nz = 0) ∨
      (vt.py = height ∧ vt.nx = 0 ∧ vt.ny = 1 ∧ vt.nz = 0) := by
  intro vt hvt
  simp only [tubeVertexList, List.mem_flatMap, List.mem_range] at hvt
  obtain ⟨i, _, hmem⟩ := hvt
  simp only [List.mem_cons, List.not_mem_nil, or_false] at hmem
  rcases hmem with h1 | h1 | h1 | h1 <;> subst h1 <;> simp

/-- Witness for C10: the theorem applied over `ℚ` to the first emitted
vertex of a concrete tube. -/
theorem claim_tube_vertical_normals_witness :
    ((⟨0, 0, 0, 0, -1, 0, 0, 1⟩ : Vertex ℚ).py = 0 ∧
       (⟨0, 0, 0, 0, -1, 0, 0, 1⟩ : Vertex ℚ).nx = 0 ∧
       (⟨0, 0, 0, 0, -1, 0, 0, 1⟩ : Vertex ℚ).ny = -1 ∧
       (⟨0, 0, 0, 0, -1, 0, 0, 1⟩ : Vertex ℚ).nz = 0) ∨
    ((⟨0, 0, 0, 0, -1, 0, 0, 1⟩ : Vertex ℚ).py = 1 ∧
       (⟨0, 0, 0, 0, -1, 0, 0, 1⟩ : Vertex ℚ).nx = 0 ∧
       (⟨0, 0, 0, 0, -1, 0, 0, 1⟩ : Vertex ℚ).ny = 1 ∧
       (⟨0, 0, 0, 0, -1, 0, 0, 1⟩ : Vertex ℚ).nz = 0) :=
  claim_tube_vertical_normals (fun _ => 0) (fun _ => 0) 0 1 1 1 3
    ⟨0, 0, 0, 0, -1, 0, 0, 1⟩ (by
      unfold tubeVertexList
      refine List.mem_flatMap.mpr ⟨0, by norm_num [tubeSlices], ?_⟩
      norm_num)

/-! ### Index-bound lemmas, one per embedded generator -/

lemma box_indicesInBounds {K : Type} [LinearOrderedField K] :
    indicesInBounds (LoadBoxMesh (K := K)) := by
  intro idx hidx
  simp only [LoadBoxMesh] at hidx ⊢
  rw [nVerticesOf_flattenVerts]
  have hlen : (boxVertexList (K := K)).length = 24 := by
    simp [boxVertexList]
  rw [hlen]
  have hall : ∀ x ∈ boxIndexList, x < 24 := by decide
  exact hall idx hidx

lemma cone_indicesInBounds {K : Type} [LinearOrderedField K]
    (sinf cosf sqrtf : K → K) (pi radius height : K) (numSlices : ℤ) :
    indicesInBounds (LoadConeMesh sinf cosf sqrtf pi radius height numSlices) := by
  intro idx hidx
  have hn := coneSlices_ge numSlices
  simp only [LoadConeMesh] at hidx ⊢
  rw [nVerticesOf_flattenVerts, coneVertexList_length]
  simp only [coneIndexList, List.mem_append, List.mem_flatMap, List.mem_range,
    List.mem_cons, List.not_mem_nil, or_false] at hidx
  rcases hidx with ⟨i, hi, hcase⟩ | ⟨i, hi, hcase⟩
  · have hmod : (i + 1) % coneSlices numSlices < coneSlices numSlices :=
      Nat.mod_lt _ (by omega)
    omega
  · omega

lemma cylinder_indicesInBounds {K : Type} [LinearOrderedField K]
    (sinf cosf : K → K) (pi radius height : K) (numSlices : ℤ) :
    indicesInBounds (LoadCylinderMesh sinf cosf pi radius height numSlices) := by
  intro idx hidx
  have hn := cylinderSlices_ge numSlices
  simp only [LoadCylinderMesh] at hidx ⊢
  rw [nVerticesOf_flattenVerts, cylinderVertexList_length]
  simp only [cylinderIndexList, List.mem_append, List.mem_flatMap, List.mem_range,
    List.mem_cons, List.not_mem_nil, or_false] at hidx
  rcases hidx with (⟨i, hi, hcase⟩ | ⟨i, hi, hcase⟩) | ⟨i, hi, hcase⟩
  · have hmod : (i + 1) % cylinderSlices numSlices < cylinderSlices numSlices :=
      Nat.mod_lt _ (by omega)
    omega
  · have hmod : (i + 1) % cylinderSlices numSlices < cylinderSlices numSlices :=
      Nat.mod_lt _ (by omega)
    omega
  · omega

lemma sphere_indicesInBounds {K : Type} [LinearOrderedField K]
    (sinf cosf : K → K) (pi : K) (latitudeSegments longitudeSegments : ℤ)
    (radius : K) :
    indicesInBounds (LoadSphereMesh sinf cosf pi latitudeSegments longitudeSegments radius) := by
  intro idx hidx
  simp only [LoadSphereMesh] at hidx ⊢
  rw [nVerticesOf_flattenVerts, sphereVertexList_length]
  simp only [sphereIndexList, List.mem_flatMap, List.mem_range, List.mem_cons,
    List.not_mem_nil, or_false] at hidx
  obtain ⟨lat, hlat, lon, hlon, hcase⟩ := hidx
  have h1 : (latitudeSegments + 1).toNat = latitudeSegments.toNat + 1 := by omega
  have h2 : (longitudeSegments + 1).toNat = longitudeSegments.toNat + 1 := by omega
  rw [h1, h2]
  set L := longitudeSegments.toNat with hL
  have e1 : (lat + 2) * (L + 1) = lat * (L + 1) + 2 * L + 2 := by ring
  have hb : (lat + 2) * (L + 1) ≤ (latitudeSegments.toNat + 1) * (L + 1) :=
    Nat.mul_le_mul_right _ (by omega)
  omega

lemma tube_indicesInBounds {K : Type} [LinearOrderedField K]
    (sinf cosf : K → K) (pi outerRadius innerRadius height : K)
    (numSlices : ℤ) :
    indicesInBounds (LoadTubeMesh sinf cosf pi outerRadius innerRadius height numSlices) := by
  intro idx hidx
  have hn := tubeSlices_ge numSlices
  simp only [LoadTubeMesh] at hidx ⊢
  rw [nVerticesOf_flattenVerts, tubeVertexList_length]
  simp only [tubeIndexList, List.mem_append, List.mem_flatMap, List.mem_range,
    List.mem_cons, List.not_mem_nil, or_false] at hidx
  rcases hidx with ⟨i, hi, hcase⟩ | ⟨i, hi, hcase⟩ <;> omega

lemma spring_indicesInBounds {K : Type} [LinearOrderedField K]
    (sinf cosf sqrtf : K → K) (pi mainRadius tubeRadius : K)
    (mainSegments tubeSegments : ℤ) (springLength : K) :
    indicesInBounds (LoadSpringMesh sinf cosf sqrtf pi mainRadius tubeRadius
      mainSegments tubeSegments springLength) := by
  intro idx hidx
  simp only [LoadSpringMesh] at hidx ⊢
  rw [nVerticesOf_flattenVerts, springVertexList_length]
  simp only [springIndexList, List.mem_flatMap, List.mem_range, List.mem_cons,
    List.not_mem_nil, or_false] at hidx
  obtain ⟨i, hi, j, hj, hcase⟩ := hidx
  set T := (springTubeSegments tubeSegments).toNat with hT
  set M := (springMainSegments mainSegments * springTubeSegments tubeSegments).toNat with hM
  have e1 : (i + 1) * (T + 1) = i * (T + 1) + T + 1 := by ring
  have e2 : (i + 2) * (T + 1) = i * (T + 1) + 2 * T + 2 := by ring
  have hb : (i + 2) * (T + 1) ≤ (M + 1) * (T + 1) :=
    Nat.mul_le_mul_right _ (by omega)
  omega

lemma partialCone_indicesInBounds {K : Type} [LinearOrderedField K]
    (sinf cosf sqrtf : K → K) (pi radius height : K) (numSlices : ℤ)
    (arcDegrees : K) :
    indicesInBounds (DrawPartialConeMesh sinf cosf sqrtf pi radius height numSlices arcDegrees) := by
  intro idx hidx
  have hn := partialConeSlices_ge numSlices
  simp only [DrawPartialConeMesh] at hidx ⊢
  rw [nVerticesOf_flattenVerts, partialConeVertexList_length]
  simp only [partialConeIndexList, partialConeTriangleList, List.mem_flatMap,
    List.mem_range, List.mem_cons, List.not_mem_nil, or_false] at hidx
  obtain ⟨t, ⟨i, hi, hcase⟩, hidx⟩ := hidx
  rcases hcase with rfl | rfl <;> simp at hidx <;> omega

lemma sineCone_indicesInBounds {K : Type} [LinearOrderedField K]
    (sinf cosf sqrtf : K → K) (powf : K → K → K)
    (pi baseRadius height flattenFactor sineAmplitude sineFrequency sinePhase : K)
    (radialSegments heightSegments : ℤ) :
    indicesInBounds (DrawSineConeMesh sinf cosf sqrtf powf pi baseRadius height
      flattenFactor sineAmplitude sineFrequency sinePhase radialSegments heightSegments) := by
  intro idx hidx
  simp only [DrawSineConeMesh] at hidx ⊢
  rw [nVerticesOf_flattenVerts, sineConeVertexList_length]
  simp only [sineConeIndexList, sineConeCells, List.mem_flatMap, List.mem_range,
    List.mem_map, List.mem_cons, List.not_mem_nil, or_false] at hidx
  obtain ⟨cell, ⟨i, hi, j, hj, hcell⟩, hcase⟩ := hidx
  subst hcell
  have h1 : (heightSegments + 1).toNat = heightSegments.toNat + 1 := by omega
  have h2 : (radialSegments + 1).toNat = radialSegments.toNat + 1 := by omega
  rw [h1, h2]
  set R := radialSegments.toNat with hR
  simp only [h2] at hcase
  have e1 : (i + 1) * (R + 1) = i * (R + 1) + R + 1 := by ring
  have e2 : (i + 2) * (R + 1) = i * (R + 1) + 2 * R + 2 := by ring
  have hb : (i + 2) * (R + 1) ≤ (heightSegments.toNat + 1) * (R + 1) :=
    Nat.mul_le_mul_right _ (by omega)
  omega

/-! ## Claim C1 — every index is below the vertex count -/

/-- Claim C1: for every embedded shape generator and all parameters,
every value in the emitted index buffer is strictly less than the number
of vertices in the emitted vertex buffer, where the vertex count is the
number of interleaved floats divided by 8 (as `InitializeMesh` computes
it). -/
theorem claim_indices_in_bounds {K : Type} [LinearOrderedField K]
    (sinf cosf sqrtf : K → K) (powf : K → K → K)
    (pi radius height outerR innerR mainR tubeR sprLen baseR flat amp freq phase arc : K)
    (s latS lonS ms ts radS hS : ℤ) :
    indicesInBounds (LoadBoxMesh (K := K)) ∧
    indicesInBounds (LoadConeMesh sinf cosf sqrtf pi radius height s) ∧
    indicesInBounds (LoadCylinderMesh sinf cosf pi radius height s) ∧
    indicesInBounds (LoadSphereMesh sinf cosf pi latS lonS radius) ∧
    indicesInBounds (LoadTubeMesh sinf cosf pi outerR innerR height s) ∧
    indicesInBounds (LoadSpringMesh sinf cosf sqrtf pi mainR tubeR ms ts sprLen) ∧
    indicesInBounds (DrawPartialConeMesh sinf cosf sqrtf pi radius height s arc) ∧
    indicesInBounds (DrawSineConeMesh sinf cosf sqrtf powf pi baseR height flat
      amp freq phase radS hS) :=
  ⟨box_indicesInBounds, cone_indicesInBounds _ _ _ _ _ _ _,
   cylinder_indicesInBounds _ _ _ _ _ _,
   sphere_indicesInBounds _ _ _ _ _ _,
   tube_indicesInBounds _ _ _ _ _ _ _,
   spring_indicesInBounds _ _ _ _ _ _ _ _ _,
   partialCone_indicesInBounds _ _ _ _ _ _ _ _,
   sineCone_indicesInBounds _ _ _ _ _ _ _ _ _ _ _ _ _⟩

/-- Witness for C1: each conjunct of the theorem applied over `ℚ` to a
concrete index of a concrete mesh, discharging the membership hypothesis
by computation. -/
theorem claim_indices_in_bounds_witness :
    (2 : ℕ) < nVerticesOf (LoadBoxMesh (K := ℚ)).1 ∧
    (4 : ℕ) < nVerticesOf (LoadConeMesh (K := ℚ)
      (fun _ => 0) (fun _ => 0) (fun _ => 0) 0 1 1 3).1 ∧
    (1 : ℕ) < nVerticesOf (LoadSphereMesh (K := ℚ)
      (fun _ => 0) (fun _ => 0) 0 1 1 1).1 ∧
    (4 : ℕ) < nVerticesOf (LoadTubeMesh (K := ℚ)
      (fun _ => 0) (fun _ => 0) 0 2 1 1 3).1 := by
  have h := claim_indices_in_bounds (K := ℚ)
    (fun _ => 0) (fun _ => 0) (fun _ => 0) (fun _ _ => 0)
    0 1 1 2 1 1 1 1 1 0 0 0 0 0 3 1 1 1 8 1 1
  refine ⟨h.1 2 (by decide), h.2.1 4 (by decide), ?_, ?_⟩
  · exact h.2.2.2.1 1 (by decide)
  · exact h.2.2.2.2.1 4 (by decide)

/-- Counterexample to claim C2: not every generator clamps segment counts
below 3 up to 3.  `LoadSphereMesh` performs no clamping at all: with
`latitudeSegments = 1` it emits 2·4 vertices, not the 4·4 a clamp to 3
would give, so its output differs from the output at
`latitudeSegments = 3`. -/
theorem claim_clamping_counterexample :
    LoadSphereMesh (K := ℚ) (fun _ => 0) (fun _ => 0) 0 1 3 1
      ≠ LoadSphereMesh (fun _ => 0) (fun _ => 0) 0 3 3 1 := by
  intro hEq
  have hlen := congrArg (fun p => p.1.length) hEq
  simp only [LoadSphereMesh, flattenVerts_length, sphereVertexList_length] at hlen
  norm_num at hlen
  omega

/-- Claim C2 as amended: the clamping behaviour the code actually has.
The cone, cylinder, tube and partial-cone generators clamp slice counts
below 3 up to 3; the spring clamps `mainSegments` up to 1 and
`tubeSegments` up to 8 (not 3); the partial cone clamps the sweep angle
into `[0°, 360°]`; and the sphere does not clamp its segment counts at
all (nor does any embedded generator clamp a non-positive scale/radius to
an epsilon).  All corrections are silent: the generators are total and
signal no error. -/
theorem claim_clamping_amended {K : Type} [LinearOrderedField K]
    (sinf cosf sqrtf : K → K)
    (pi radius height outerR innerR mainR tubeR sprLen arc : K)
    (s ms ts : ℤ) :
    (LoadConeMesh sinf cosf sqrtf pi radius height s
       = LoadConeMesh sinf cosf sqrtf pi radius height (max 3 s)) ∧
    (LoadCylinderMesh sinf cosf pi radius height s
       = LoadCylinderMesh sinf cosf pi radius height (max 3 s)) ∧
    (LoadTubeMesh sinf cosf pi outerR innerR height s
       = LoadTubeMesh sinf cosf pi outerR innerR height (max 3 s)) ∧
    (LoadSpringMesh sinf cosf sqrtf pi mainR tubeR ms ts sprLen
       = LoadSpringMesh sinf cosf sqrtf pi mainR tubeR (max 1 ms) (max 8 ts) sprLen) ∧
    (DrawPartialConeMesh sinf cosf sqrtf pi radius height s arc
       = DrawPartialConeMesh sinf cosf sqrtf pi radius height (max 3 s)
           (min (max arc 0) 360)) ∧
    (LoadSphereMesh sinf cosf pi 2 3 radius ≠ LoadSphereMesh sinf cosf pi 3 3 radius) := by
  refine ⟨?_, ?_, ?_, ?_, ?_, ?_⟩
  · simp only [LoadConeMesh, coneVertexList, coneIndexList, coneSlices_clamp]
  · simp only [LoadCylinderMesh, cylinderVertexList, cylinderIndexList, cylinderSlices_clamp]
  · simp only [LoadTubeMesh, tubeVertexList, tubeIndexList, tubeSlices_clamp]
  · simp only [LoadSpringMesh, springVertexList, springIndexList, springVertex,
      springMainSegments_clamp, springTubeSegments_clamp]
  · simp only [DrawPartialConeMesh, partialConeVertexList, partialConeIndexList,
      partialConeTriangleList, partialConeSlices_clamp, partialConeArc_clamp]
  · intro hEq
    have hlen := congrArg (fun p => p.1.length) hEq
    simp only [LoadSphereMesh, flattenVerts_length, sphereVertexList_length] at hlen
    norm_num at hlen
    omega

/-! ## Claim C6 — the partial cone stays open -/

/-- Claim C6: for the partial cone with `arcDegrees < 360°`, no emitted
triangle contains both a vertex of the first angular column (indices
`0, 1`, i.e. `< 2`) and a vertex of the last angular column (indices
`2*numSlices, 2*numSlices + 1`, i.e. `≥ 2*numSlices`); the two boundary
edges stay topologically disconnected. -/
theorem claim_partial_cone_open {K : Type} [LinearOrderedField K]
    (arcDegrees : K) (numSlices : ℤ) (harc : arcDegrees < 360) :
    ∀ tri ∈ partialConeTriangleList numSlices,
      ¬ ((tri.1 < 2 ∨ tri.2.1 < 2 ∨ tri.2.2 < 2) ∧
         (2 * partialConeSlices numSlices ≤ tri.1 ∨
          2 * partialConeSlices numSlices ≤ tri.2.1 ∨
          2 * partialConeSlices numSlices ≤ tri.2.2)) := by
  intro tri htri
  have hn := partialConeSlices_ge numSlices
  simp only [partialConeTriangleList, List.mem_flatMap, List.mem_range,
    List.mem_cons, List.not_mem_nil, or_false] at htri
  obtain ⟨i, hi, hcase⟩ := htri
  rcases hcase with rfl | rfl <;> rintro ⟨hfirst, hlast⟩ <;>
    simp only [] at hfirst hlast <;> omega

/-- Witness for C6: the theorem applied over `ℚ` with `arcDegrees = 90`
to the first triangle of a 3-slice partial cone. -/
theorem claim_partial_cone_open_witness :
    ¬ ((((0 : ℕ), (3 : ℕ), (1 : ℕ)).1 < 2 ∨
        ((0 : ℕ), (3 : ℕ), (1 : ℕ)).2.1 < 2 ∨
        ((0 : ℕ), (3 : ℕ), (1 : ℕ)).2.2 < 2) ∧
       (2 * partialConeSlices 3 ≤ ((0 : ℕ), (3 : ℕ), (1 : ℕ)).1 ∨
        2 * partialConeSlices 3 ≤ ((0 : ℕ), (3 : ℕ), (1 : ℕ)).2.1 ∨
        2 * partialConeSlices 3 ≤ ((0 : ℕ), (3 : ℕ), (1 : ℕ)).2.2)) :=
  claim_partial_cone_open (K := ℚ) 90 3 (by norm_num) (0, 3, 1) (by decide)

/-! ## Claim C5 — the sphere duplicates its wrap seam -/

/-- Helper: random access into a `map` over a range. -/
lemma getD_range_map {α : Type} (g : ℕ → α) (n b : ℕ) (d : α) (hb : b < n) :
    ((List.range n).map g).getD b d = g b := by
  rw [List.getD_eq_getElem?_getD, List.getElem?_map, List.getElem?_range hb]
  rfl

/-- The vertex the sphere generator emits for grid coordinate
`(lat, lon)`; `sphereVertexList` is the row-major flattening of this
function. -/
def sphereVertexAt {K : Type} [LinearOrderedField K] (sinf cosf : K → K)
    (pi : K) (latitudeSegments longitudeSegments : ℤ) (radius : K)
    (lat lon : ℕ) : Vertex K :=
  let theta := (lat : K) * pi / (latitudeSegments : K)
  let sinTheta := sinf theta
  let cosTheta := cosf theta
  let phi := (lon : K) * 2 * pi / (longitudeSegments : K)
  let sinPhi := sinf phi
  let cosPhi := cosf phi
  ⟨radius * sinTheta * cosPhi, radius * cosTheta, radius * sinTheta * sinPhi,
    sinTheta * cosPhi, cosTheta, sinTheta * sinPhi,
    1 - (lon : K) / (longitudeSegments : K),
    1 - (lat : K) / (latitudeSegments : K)⟩

/-- Reading the flattened sphere vertex grid at `row * (L + 1) + col`
recovers `sphereVertexAt row col`. -/
lemma sphereVertexList_getD (latitudeSegments longitudeSegments : ℤ)
    (radius : ℝ) (row col : ℕ)
    (hrow : row < (latitudeSegments + 1).toNat) (hL : 1 ≤ longitudeSegments)
    (hcol : col < longitudeSegments.toNat + 1) :
    (sphereVertexList Real.sin Real.cos Real.pi
        latitudeSegments longitudeSegments radius).getD
      (row * (longitudeSegments.toNat + 1) + col) default
      = sphereVertexAt Real.sin Real.cos Real.pi
          latitudeSegments longitudeSegments radius row col := by
  have hc : (longitudeSegments + 1).toNat = longitudeSegments.toNat + 1 := by omega
  rw [sphereVertexList]
  rw [getD_range_flatMap _ ((latitudeSegments + 1).toNat)
    (longitudeSegments.toNat + 1) row col default
    (fun _ => by simp [hc]) hrow hcol]
  rw [getD_range_map _ _ _ _ (by omega)]
  rfl

/-- Claim C5: for every full sphere with `longitudeSegments = L ≥ 1` and
every latitude row, the vertex of longitude column `0` and the vertex of
column `L` (the duplicated 0°/360° seam) have equal position components,
and their texture coordinates `u` differ by exactly `1`. -/
theorem claim_sphere_seam (latitudeSegments longitudeSegments : ℤ)
    (radius : ℝ) (row : ℕ)
    (hrow : row < (latitudeSegments + 1).toNat) (hL : 1 ≤ longitudeSegments) :
    ((sphereVertexList Real.sin Real.cos Real.pi
        latitudeSegments longitudeSegments radius).getD
      (row * (longitudeSegments.toNat + 1)) default).px
      = ((sphereVertexList Real.sin Real.cos Real.pi
          latitudeSegments longitudeSegments radius).getD
        (row * (longitudeSegments.toNat + 1) + longitudeSegments.toNat) default).px ∧
    ((sphereVertexList Real.sin Real.cos Real.pi
        latitudeSegments longitudeSegments radius).getD
      (row * (longitudeSegments.toNat + 1)) default).py
      = ((sphereVertexList Real.sin Real.cos Real.pi
          latitudeSegments longitudeSegments radius).getD
        (row * (longitudeSegments.toNat + 1) + longitudeSegments.toNat) default).py ∧
    ((sphereVertexList Real.sin Real.cos Real.pi
        latitudeSegments longitudeSegments radius).getD
      (row * (longitudeSegments.toNat + 1)) default).pz
      = ((sphereVertexList Real.sin Real.cos Real.pi
          latitudeSegments longitudeSegments radius).getD
        (row * (longitudeSegments.toNat + 1) + longitudeSegments.toNat) default).pz ∧
    ((sphereVertexList Real.sin Real.cos Real.pi
        latitudeSegments longitudeSegments radius).getD
      (row * (longitudeSegments.toNat + 1)) default).u
      - ((sphereVertexList Real.sin Real.cos Real.pi
          latitudeSegments longitudeSegments radius).getD
        (row * (longitudeSegments.toNat + 1) + longitudeSegments.toNat) default).u
      = 1 := by
  have h0 := sphereVertexList_getD latitudeSegments longitudeSegments radius row 0
    hrow hL (by omega)
  have hLe := sphereVertexList_getD latitudeSegments longitudeSegments radius row
    longitudeSegments.toNat hrow hL (by omega)
  rw [Nat.add_zero] at h0
  rw [h0, hLe]
  have hL0 : (longitudeSegments : ℝ) ≠ 0 := by
    exact_mod_cast (by omega : longitudeSegments ≠ 0)
  have hcastL : ((longitudeSegments.toNat : ℕ) : ℝ) = (longitudeSegments : ℝ) := by
    rw [show ((longitudeSegments.toNat : ℕ) : ℝ)
        = ((longitudeSegments.toNat : ℤ) : ℝ) by push_cast; rfl]
    rw [Int.toNat_of_nonneg (by omega)]
  have hphi0 : ((0 : ℕ) : ℝ) * 2 * Real.pi / (longitudeSegments : ℝ) = 0 := by
    simp
  have hphiL : ((longitudeSegments.toNat : ℕ) : ℝ) * 2 * Real.pi
      / (longitudeSegments : ℝ) = 2 * Real.pi := by
    rw [hcastL]
    field_simp
    ring
  have hphiL2 : (longitudeSegments : ℝ) * 2 * Real.pi / (longitudeSegments : ℝ)
      = 2 * Real.pi := by
    field_simp
    ring
  unfold sphereVertexAt
  simp [hphi0, hcastL, hphiL2, Real.cos_two_pi, Real.sin_two_pi, div_self hL0]

/-- Witness for C5: the seam theorem applied to the sphere with
`latitudeSegments = longitudeSegments = 1`, row 0. -/
theorem claim_sphere_seam_witness :
    ((sphereVertexList Real.sin Real.cos Real.pi 1 1 0).getD
        (0 * ((1 : ℤ).toNat + 1)) default).px
      = ((sphereVertexList Real.sin Real.cos Real.pi 1 1 0).getD
        (0 * ((1 : ℤ).toNat + 1) + (1 : ℤ).toNat) default).px ∧
    ((sphereVertexList Real.sin Real.cos Real.pi 1 1 0).getD
        (0 * ((1 : ℤ).toNat + 1)) default).py
      = ((sphereVertexList Real.sin Real.cos Real.pi 1 1 0).getD
        (0 * ((1 : ℤ).toNat + 1) + (1 : ℤ).toNat) default).py ∧
    ((sphereVertexList Real.sin Real.cos Real.pi 1 1 0).getD
        (0 * ((1 : ℤ).toNat + 1)) default).pz
      = ((sphereVertexList Real.sin Real.cos Real.pi 1 1 0).getD
        (0 * ((1 : ℤ).toNat + 1) + (1 : ℤ).toNat) default).pz ∧
    ((sphereVertexList Real.sin Real.cos Real.pi 1 1 0).getD
        (0 * ((1 : ℤ).toNat + 1)) default).u
      - ((sphereVertexList Real.sin Real.cos Real.pi 1 1 0).getD
        (0 * ((1 : ℤ).toNat + 1) + (1 : ℤ).toNat) default).u = 1 :=
  claim_sphere_seam 1 1 0 0 (by decide) (by decide)

/-! ## Claim C7 — unit-length normals -/

/-- Normalizing a vector of nonzero length yields a unit vector (squared
length 1); this is the correctness core of every `glm::normalize` call in
the generators. -/
lemma normSq_normalize3 (v : Vec3 ℝ) (hv : dot3 v v ≠ 0) :
    dot3 (normalize3 Real.sqrt v) (normalize3 Real.sqrt v) = 1 := by
  have hnn : 0 ≤ dot3 v v := by
    unfold dot3
    nlinarith [mul_self_nonneg v.x, mul_self_nonneg v.y, mul_self_nonneg v.z]
  have hpos : 0 < dot3 v v := lt_of_le_of_ne hnn (Ne.symm hv)
  have hs : 0 < Real.sqrt (dot3 v v) := Real.sqrt_pos.mpr hpos
  have hs2 : Real.sqrt (dot3 v v) * Real.sqrt (dot3 v v) = dot3 v v :=
    Real.mul_self_sqrt hnn
  unfold normalize3
  unfold dot3 at *
  field_simp

/-- Sweeping a circular cross-section inside an orthonormal frame
`(n, t × n)` produces vectors whose normalization has squared length 1 —
exactly the shading-normal computation of `LoadSpringMesh`. -/
lemma unit_normal_of_orthonormal (t n : Vec3 ℝ) (ht : dot3 t t = 1)
    (hn : dot3 n n = 1) (htn : dot3 t n = 0) (tx ty : ℝ)
    (htxty : tx ^ 2 + ty ^ 2 ≠ 0) :
    dot3 (normalize3 Real.sqrt (add3 (smul3 tx n) (smul3 ty (cross3 t n))))
      (normalize3 Real.sqrt (add3 (smul3 tx n) (smul3 ty (cross3 t n)))) = 1 := by
  have hnb : dot3 n (cross3 t n) = 0 := by
    unfold dot3 cross3
    ring
  have lag : dot3 (cross3 t n) (cross3 t n)
      = dot3 t t * dot3 n n - (dot3 t n) ^ 2 := by
    unfold dot3 cross3
    ring
  have hb : dot3 (cross3 t n) (cross3 t n) = 1 := by
    rw [lag, ht, hn, htn]
    norm_num
  have expand : dot3 (add3 (smul3 tx n) (smul3 ty (cross3 t n)))
      (add3 (smul3 tx n) (smul3 ty (cross3 t n)))
      = tx ^ 2 * dot3 n n + 2 * tx * ty * dot3 n (cross3 t n)
        + ty ^ 2 * dot3 (cross3 t n) (cross3 t n) := by
    unfold dot3 add3 smul3 cross3
    ring
  apply normSq_normalize3
  rw [expand, hn, hnb, hb]
  ring_nf
  ring_nf at htxty
  exact htxty

/-- The tangent/normal/binormal frame construction of `LoadSpringMesh`
produces a unit shading normal: normalizing a tangent `(x, y, z)` whose
horizontal part has squared length `R² > 0`, deriving the perpendicular
`(-t.y, t.x, 0)`, completing the frame with a cross product, and sweeping
a circle of nonzero radius `r` yields vectors of squared length 1 after
normalization. -/
lemma frame_normal_unit (x y z R r θ : ℝ) (hxy : x * x + y * y = R ^ 2)
    (hR2 : 0 < R ^ 2) (hr : r ≠ 0) :
    dot3
      (normalize3 Real.sqrt (add3
        (smul3 (r * Real.cos θ)
          (normalize3 Real.sqrt
            ⟨-(normalize3 Real.sqrt ⟨x, y, z⟩).y, (normalize3 Real.sqrt ⟨x, y, z⟩).x, 0⟩))
        (smul3 (r * Real.sin θ)
          (cross3 (normalize3 Real.sqrt ⟨x, y, z⟩)
            (normalize3 Real.sqrt
              ⟨-(normalize3 Real.sqrt ⟨x, y, z⟩).y, (normalize3 Real.sqrt ⟨x, y, z⟩).x, 0⟩)))))
      (normalize3 Real.sqrt (add3
        (smul3 (r * Real.cos θ)
          (normalize3 Real.sqrt
            ⟨-(normalize3 Real.sqrt ⟨x, y, z⟩).y, (normalize3 Real.sqrt ⟨x, y, z⟩).x, 0⟩))
        (smul3 (r * Real.sin θ)
          (cross3 (normalize3 Real.sqrt ⟨x, y, z⟩)
            (normalize3 Real.sqrt
              ⟨-(normalize3 Real.sqrt ⟨x, y, z⟩).y, (normalize3 Real.sqrt ⟨x, y, z⟩).x, 0⟩))))) = 1 := by
  have hD : dot3 (⟨x, y, z⟩ : Vec3 ℝ) ⟨x, y, z⟩ = x * x + y * y + z * z := rfl
  have hDpos : 0 < dot3 (⟨x, y, z⟩ : Vec3 ℝ) ⟨x, y, z⟩ := by
    rw [hD]
    nlinarith [mul_self_nonneg z]
  have hDne : dot3 (⟨x, y, z⟩ : Vec3 ℝ) ⟨x, y, z⟩ ≠ 0 := ne_of_gt hDpos
  have hs2 : Real.sqrt (dot3 (⟨x, y, z⟩ : Vec3 ℝ) ⟨x, y, z⟩)
      * Real.sqrt (dot3 (⟨x, y, z⟩ : Vec3 ℝ) ⟨x, y, z⟩)
      = dot3 (⟨x, y, z⟩ : Vec3 ℝ) ⟨x, y, z⟩ := Real.mul_self_sqrt hDpos.le
  have ht : dot3 (normalize3 Real.sqrt ⟨x, y, z⟩) (normalize3 Real.sqrt ⟨x, y, z⟩) = 1 :=
    normSq_normalize3 _ hDne
  have hww : dot3
      (⟨-(normalize3 Real.sqrt ⟨x, y, z⟩).y, (normalize3 Real.sqrt ⟨x, y, z⟩).x, 0⟩ : Vec3 ℝ)
      (⟨-(normalize3 Real.sqrt ⟨x, y, z⟩).y, (normalize3 Real.sqrt ⟨x, y, z⟩).x, 0⟩ : Vec3 ℝ)
      = R ^ 2 / dot3 (⟨x, y, z⟩ : Vec3 ℝ) ⟨x, y, z⟩ := by
    rw [← hxy, ← hs2]
    unfold normalize3 dot3
    simp only []
    ring
  have hwwne : dot3
      (⟨-(normalize3 Real.sqrt ⟨x, y, z⟩).y, (normalize3 Real.sqrt ⟨x, y, z⟩).x, 0⟩ : Vec3 ℝ)
      (⟨-(normalize3 Real.sqrt ⟨x, y, z⟩).y, (normalize3 Real.sqrt ⟨x, y, z⟩).x, 0⟩ : Vec3 ℝ)
      ≠ 0 := by
    rw [hww]
    exact div_ne_zero (ne_of_gt hR2) hDne
  have hn : dot3
      (normalize3 Real.sqrt
        ⟨-(normalize3 Real.sqrt ⟨x, y, z⟩).y, (normalize3 Real.sqrt ⟨x, y, z⟩).x, 0⟩)
      (normalize3 Real.sqrt
        ⟨-(normalize3 Real.sqrt ⟨x, y, z⟩).y, (normalize3 Real.sqrt ⟨x, y, z⟩).x, 0⟩) = 1 :=
    normSq_normalize3 _ hwwne
  have htn : dot3 (normalize3 Real.sqrt ⟨x, y, z⟩)
      (normalize3 Real.sqrt
        ⟨-(normalize3 Real.sqrt ⟨x, y, z⟩).y, (normalize3 Real.sqrt ⟨x, y, z⟩).x, 0⟩) = 0 := by
    have hexp : dot3 (normalize3 Real.sqrt ⟨x, y, z⟩)
        (normalize3 Real.sqrt
          ⟨-(normalize3 Real.sqrt ⟨x, y, z⟩).y, (normalize3 Real.sqrt ⟨x, y, z⟩).x, 0⟩)
        = (dot3 (normalize3 Real.sqrt ⟨x, y, z⟩)
            ⟨-(normalize3 Real.sqrt ⟨x, y, z⟩).y, (normalize3 Real.sqrt ⟨x, y, z⟩).x, 0⟩)
          / Real.sqrt (dot3
            (⟨-(normalize3 Real.sqrt ⟨x, y, z⟩).y, (normalize3 Real.sqrt ⟨x, y, z⟩).x, 0⟩ : Vec3 ℝ)
            ⟨-(normalize3 Real.sqrt ⟨x, y, z⟩).y, (normalize3 Real.sqrt ⟨x, y, z⟩).x, 0⟩) := by
      unfold normalize3 dot3
      simp only []
      ring
    rw [hexp]
    have hzero : dot3 (normalize3 Real.sqrt ⟨x, y, z⟩)
        ⟨-(normalize3 Real.sqrt ⟨x, y, z⟩).y, (normalize3 Real.sqrt ⟨x, y, z⟩).x, 0⟩ = 0 := by
      unfold normalize3 dot3
      simp only []
      ring
    rw [hzero, zero_div]
  have htxty : (r * Real.cos θ) ^ 2 + (r * Real.sin θ) ^ 2 ≠ 0 := by
    have hsum : (r * Real.cos θ) ^ 2 + (r * Real.sin θ) ^ 2 = r ^ 2 := by
      linear_combination r ^ 2 * Real.sin_sq_add_cos_sq θ
    rw [hsum]
    exact pow_ne_zero 2 hr
  exact unit_normal_of_orthonormal _ _ ht hn htn (r * Real.cos θ) (r * Real.sin θ) htxty

/-- Counterexample to claim C7: normal unit-length does not hold for all
clamped parameters.  `LoadSpringMesh` never clamps its radii; with
`tubeRadius = 0` every cross-section offset is the zero vector, its
normalization divides by zero (`NaN` in the C++ float code, the zero
vector in the model), and the emitted normal has squared length 0, far
outside `[(1 - 10⁻³)², (1 + 10⁻³)²]`. -/
theorem claim_unit_normals_counterexample :
    ¬ (∀ vt ∈ springVertexList Real.sin Real.cos Real.sqrt Real.pi 1 0 1 8 4,
        ((1 : ℝ) - 1 / 1000) ^ 2 ≤ vt.nx ^ 2 + vt.ny ^ 2 + vt.nz ^ 2 ∧
          vt.nx ^ 2 + vt.ny ^ 2 + vt.nz ^ 2 ≤ ((1 : ℝ) + 1 / 1000) ^ 2) := by
  intro hall
  have hmem : springVertex Real.sin Real.cos Real.sqrt Real.pi 1 0 1 8 4 0 0
      ∈ springVertexList Real.sin Real.cos Real.sqrt Real.pi 1 0 1 8 4 := by
    unfold springVertexList
    refine List.mem_flatMap.mpr ⟨0, by decide, ?_⟩
    exact List.mem_map.mpr ⟨0, by decide, rfl⟩
  have h := hall _ hmem
  have hnx : (springVertex Real.sin Real.cos Real.sqrt Real.pi 1 0 1 8 4 0 0).nx = 0 := by
    simp [springVertex, normalize3, add3, smul3, cross3, dot3]
  have hny : (springVertex Real.sin Real.cos Real.sqrt Real.pi 1 0 1 8 4 0 0).ny = 0 := by
    simp [springVertex, normalize3, add3, smul3, cross3, dot3]
  have hnz : (springVertex Real.sin Real.cos Real.sqrt Real.pi 1 0 1 8 4 0 0).nz = 0 := by
    simp [springVertex, normalize3, add3, smul3, cross3, dot3]
  rw [hnx, hny, hnz] at h
  norm_num at h

/-- Claim C7 as amended: every shading normal emitted by `LoadSpringMesh`
has squared length exactly 1 — hence length within `[1 - 10⁻³, 1 + 10⁻³]`
— provided the un-clamped radius parameters are nonzero
(`mainRadius ≠ 0` and `tubeRadius ≠ 0`); at zero radii the normalization
divides by zero and the property fails. -/
theorem claim_unit_normals_amended (mainRadius tubeRadius springLength : ℝ)
    (mainSegments tubeSegments : ℤ) (hR : mainRadius ≠ 0) (hr : tubeRadius ≠ 0)
    (vt : Vertex ℝ)
    (hvt : vt ∈ springVertexList Real.sin Real.cos Real.sqrt Real.pi mainRadius
      tubeRadius mainSegments tubeSegments springLength) :
    vt.nx ^ 2 + vt.ny ^ 2 + vt.nz ^ 2 = 1 ∧
    ((1 : ℝ) - 1 / 1000) ^ 2 ≤ vt.nx ^ 2 + vt.ny ^ 2 + vt.nz ^ 2 ∧
    vt.nx ^ 2 + vt.ny ^ 2 + vt.nz ^ 2 ≤ ((1 : ℝ) + 1 / 1000) ^ 2 := by
  have h1 : vt.nx ^ 2 + vt.ny ^ 2 + vt.nz ^ 2 = 1 := by
    simp only [springVertexList, List.mem_flatMap, List.mem_range, List.mem_map] at hvt
    obtain ⟨i, hi, j, hj, hvtEq⟩ := hvt
    subst hvtEq
    simp only [springVertex]
    have hconv : ∀ v : Vec3 ℝ, v.x ^ 2 + v.y ^ 2 + v.z ^ 2 = dot3 v v := by
      intro v
      unfold dot3
      ring
    rw [hconv]
    have hxy : -mainRadius * Real.sin ((i : ℝ) *
          (2 * Real.pi / ((springTubeSegments tubeSegments : ℤ) : ℝ)))
          * (-mainRadius * Real.sin ((i : ℝ) *
            (2 * Real.pi / ((springTubeSegments tubeSegments : ℤ) : ℝ))))
        + mainRadius * Real.cos ((i : ℝ) *
            (2 * Real.pi / ((springTubeSegments tubeSegments : ℤ) : ℝ)))
          * (mainRadius * Real.cos ((i : ℝ) *
            (2 * Real.pi / ((springTubeSegments tubeSegments : ℤ) : ℝ))))
        = mainRadius ^ 2 := by
      linear_combination mainRadius ^ 2 * Real.sin_sq_add_cos_sq
        ((i : ℝ) * (2 * Real.pi / ((springTubeSegments tubeSegments : ℤ) : ℝ)))
    have hR2 : 0 < mainRadius ^ 2 :=
      lt_of_le_of_ne (sq_nonneg mainRadius) (Ne.symm (pow_ne_zero 2 hR))
    exact frame_normal_unit _ _ _ mainRadius tubeRadius _ hxy hR2 hr
  refine ⟨h1, ?_, ?_⟩
  · rw [h1]
    norm_num
  · rw [h1]
    norm_num

/-- Witness for the amended C7: the theorem applied to the first vertex
of a concrete spring with both radii 1. -/
theorem claim_unit_normals_witness :
    (springVertex Real.sin Real.cos Real.sqrt Real.pi 1 1 1 8 4 0 0).nx ^ 2
        + (springVertex Real.sin Real.cos Real.sqrt Real.pi 1 1 1 8 4 0 0).ny ^ 2
        + (springVertex Real.sin Real.cos Real.sqrt Real.pi 1 1 1 8 4 0 0).nz ^ 2 = 1 ∧
    ((1 : ℝ) - 1 / 1000) ^ 2
      ≤ (springVertex Real.sin Real.cos Real.sqrt Real.pi 1 1 1 8 4 0 0).nx ^ 2
        + (springVertex Real.sin Real.cos Real.sqrt Real.pi 1 1 1 8 4 0 0).ny ^ 2
        + (springVertex Real.sin Real.cos Real.sqrt Real.pi 1 1 1 8 4 0 0).nz ^ 2 ∧
    (springVertex Real.sin Real.cos Real.sqrt Real.pi 1 1 1 8 4 0 0).nx ^ 2
        + (springVertex Real.sin Real.cos Real.sqrt Real.pi 1 1 1 8 4 0 0).ny ^ 2
        + (springVertex Real.sin Real.cos Real.sqrt Real.pi 1 1 1 8 4 0 0).nz ^ 2
      ≤ ((1 : ℝ) + 1 / 1000) ^ 2 :=
  claim_unit_normals_amended 1 1 4 1 8 one_ne_zero one_ne_zero _ (by
    unfold springVertexList
    refine List.mem_flatMap.mpr ⟨0, by decide, ?_⟩
    exact List.mem_map.mpr ⟨0, by decide, rfl⟩)
